import Mathlib

set_option autoImplicit false

/-!
Shallow embedding of the PhotoFunia client (photofunia.go, models.go) and
proofs about it.  Bytes of HTML documents are modelled as characters, Go
byte slices as character lists, and the HTTP world an operation runs
against as an explicit environment of responses.  Side effects (stream
reads, stream closes, outgoing HTTP calls) are recorded in an event trace.
-/

namespace PhotoFunia

/-- Model of Go bytes.Index applied to character lists: the index of the
first occurrence of pat in s, or none when pat does not occur.  Like the
Go function, the empty pattern occurs at index 0. -/
def bytesIndex (s pat : List Char) : Option Nat :=
  match s with
  | [] => if pat.isEmpty then some 0 else none
  | _ :: t => if pat.isPrefixOf s then some 0 else (bytesIndex t pat).map (· + 1)

/-- The three failure modes of extractImageURL, one per distinct error
message in the source. -/
inductive ExtractError
  | imageNotFound
  | srcNotFound
  | unterminated
deriving DecidableEq

/-- The literal marker identifying the result image element. -/
def imgTagStart : List Char := "<img id=\"result-image\"".toList

/-- The literal opening of the src attribute. -/
def srcAttrStart : List Char := "src=\"".toList

/-- The literal closing quote of the src attribute. -/
def srcAttrEnd : List Char := "\"".toList

/-- Model of extractImageURL: a three-stage raw-text scan of the HTML
body, mirroring the Go function statement by statement. -/
def extractImageURL (htmlContent : List Char) : Except ExtractError (List Char) :=
  match bytesIndex htmlContent imgTagStart with
  | none => .error .imageNotFound
  | some imgTagIndex =>
    match bytesIndex (htmlContent.drop imgTagIndex) srcAttrStart with
    | none => .error .srcNotFound
    | some i =>
      let srcStartIndex := i + imgTagIndex + srcAttrStart.length
      match bytesIndex (htmlContent.drop srcStartIndex) srcAttrEnd with
      | none => .error .unterminated
      | some j => .ok ((htmlContent.drop srcStartIndex).take j)

/-- The pattern pat occurs in s at position i, and at no earlier position:
this is what bytesIndex computes. -/
def firstOccurAt (pat s : List Char) (i : Nat) : Prop :=
  pat <+: s.drop i ∧ ∀ k < i, ¬ pat <+: s.drop k

theorem bytesIndex_eq_none_iff (s pat : List Char) :
    bytesIndex s pat = none ↔ ∀ k, ¬ pat <+: s.drop k := by
  induction s with
  | nil =>
    cases pat with
    | nil => simp [bytesIndex]
    | cons c cs =>
      simp only [bytesIndex, List.isEmpty_cons, List.drop_nil]
      constructor
      · intro _ k h
        exact absurd (List.eq_nil_of_prefix_nil h) (by simp)
      · intro _; rfl
  | cons a t ih =>
    by_cases hp : pat.isPrefixOf (a :: t)
    · simp only [bytesIndex]
      rw [if_pos hp]
      constructor
      · intro h; exact absurd h (by simp)
      · intro h
        exact absurd (List.isPrefixOf_iff_prefix.mp hp) (by simpa using h 0)
    · simp only [bytesIndex]
      rw [if_neg hp, Option.map_eq_none']
      rw [ih]
      constructor
      · intro h k
        cases k with
        | zero =>
          simpa using fun hc => hp (List.isPrefixOf_iff_prefix.mpr hc)
        | succ k => simpa using h k
      · intro h k
        simpa using h (k + 1)

theorem bytesIndex_eq_some_iff (s pat : List Char) (i : Nat) :
    bytesIndex s pat = some i ↔ firstOccurAt pat s i := by
  unfold firstOccurAt
  induction s generalizing i with
  | nil =>
    cases pat with
    | nil =>
      simp only [bytesIndex, List.isEmpty_nil, if_true, List.drop_nil]
      constructor
      · rintro h
        cases h
        simp
      · rintro ⟨-, h⟩
        cases i with
        | zero => rfl
        | succ n => exact absurd (h 0 (Nat.succ_pos n)) (by simp)
    | cons c cs =>
      simp only [bytesIndex, List.isEmpty_cons, List.drop_nil]
      constructor
      · intro h; cases h
      · rintro ⟨h, -⟩
        exact absurd (List.eq_nil_of_prefix_nil h) (by simp)
  | cons a t ih =>
    by_cases hp : pat.isPrefixOf (a :: t)
    · simp only [bytesIndex]
      rw [if_pos hp]
      constructor
      · rintro h
        injection h with h
        subst h
        exact ⟨List.isPrefixOf_iff_prefix.mp hp, by omega⟩
      · rintro ⟨h, hmin⟩
        cases i with
        | zero => rfl
        | succ n =>
          exact absurd (hmin 0 (Nat.succ_pos n))
            (by simpa using List.isPrefixOf_iff_prefix.mp hp)
    · simp only [bytesIndex]
      rw [if_neg hp]
      have hp' : ¬ pat <+: (a :: t) := fun hc => hp (List.isPrefixOf_iff_prefix.mpr hc)
      cases i with
      | zero =>
        simp only [List.drop_zero]
        constructor
        · intro h
          rcases Option.map_eq_some'.mp h with ⟨m, -, hm⟩
          omega
        · rintro ⟨h, -⟩
          exact absurd h hp'
      | succ n =>
        constructor
        · intro h
          rcases Option.map_eq_some'.mp h with ⟨m, hm, hmn⟩
          have hmn' : m = n := by omega
          rw [hmn'] at hm
          rcases (ih n).mp hm with ⟨h1, h2⟩
          refine ⟨by simpa using h1, ?_⟩
          intro k hk
          cases k with
          | zero => simpa using hp'
          | succ k => simpa using h2 k (by omega)
        · rintro ⟨h1, h2⟩
          have hm : bytesIndex t pat = some n := by
            refine (ih n).mpr ⟨by simpa using h1, ?_⟩
            intro k hk
            simpa using h2 (k + 1) (by omega)
          simp [hm]

theorem infix_iff_exists_prefix_drop (pat s : List Char) :
    pat <:+: s ↔ ∃ k, pat <+: s.drop k := by
  constructor
  · rintro ⟨u, v, rfl⟩
    refine ⟨u.length, ?_⟩
    rw [List.append_assoc, List.drop_left]
    exact ⟨v, rfl⟩
  · rintro ⟨k, t, ht⟩
    refine ⟨s.take k, t, ?_⟩
    rw [List.append_assoc, ht, List.take_append_drop]

theorem single_prefix_absent_iff_not_mem (c : Char) (l : List Char) :
    (∀ k, ¬ [c] <+: l.drop k) ↔ c ∉ l := by
  induction l with
  | nil => simp
  | cons a t ih =>
    constructor
    · intro h hm
      rcases List.mem_cons.mp hm with h0 | h1
      · subst h0
        exact h 0 ⟨t, rfl⟩
      · exact (ih.mp fun k => by simpa using h (k + 1)) h1
    · intro h k
      cases k with
      | zero =>
        simp only [List.drop_zero]
        rintro ⟨u, hu⟩
        simp only [List.cons_append, List.nil_append, List.cons.injEq] at hu
        exact h (by simp [hu.1])
      | succ k =>
        simpa using ih.mpr (fun hm => h (List.mem_cons_of_mem a hm)) k

theorem srcAttrEnd_def : srcAttrEnd = ['"'] := rfl

/-- C1: extractImageURL fails with the image-not-found error exactly when the
literal marker is absent from the input; with the src-attribute error exactly
when the marker occurs (first at position i) but the literal src opening does
not occur at or after i; and with the unterminated-attribute error exactly when
the src opening occurs (first at offset j at or after the marker) but no double
quote follows the opening; in every failure case no URL is returned. -/
theorem extractImageURL_error_cases (html : List Char) :
    (extractImageURL html = .error .imageNotFound ↔ ¬ imgTagStart <:+: html)
  ∧ (∀ i, firstOccurAt imgTagStart html i →
      (extractImageURL html = .error .srcNotFound ↔ ¬ srcAttrStart <:+: html.drop i))
  ∧ (∀ i j, firstOccurAt imgTagStart html i → firstOccurAt srcAttrStart (html.drop i) j →
      (extractImageURL html = .error .unterminated ↔
        '"' ∉ html.drop (j + i + srcAttrStart.length)))
  ∧ (∀ e, extractImageURL html = .error e → ∀ u, extractImageURL html ≠ .ok u) := by
  refine ⟨?_, ?_, ?_, ?_⟩
  · rcases h1 : bytesIndex html imgTagStart with - | i
    · simp only [extractImageURL, h1]
      rw [infix_iff_exists_prefix_drop]
      simp only [true_iff]
      rw [bytesIndex_eq_none_iff] at h1
      rintro ⟨k, hk⟩
      exact h1 k hk
    · constructor
      · intro h
        rcases h2 : bytesIndex (html.drop i) srcAttrStart with - | k
        · simp [extractImageURL, h1, h2] at h
        · rcases h3 : bytesIndex (html.drop (k + i + srcAttrStart.length)) srcAttrEnd
              with - | m <;>
            simp [extractImageURL, h1, h2, h3] at h
      · intro h
        rw [bytesIndex_eq_some_iff] at h1
        exact absurd ((infix_iff_exists_prefix_drop _ _).mpr ⟨i, h1.1⟩) h
  · intro i hi
    have hbi : bytesIndex html imgTagStart = some i :=
      (bytesIndex_eq_some_iff html imgTagStart i).mpr hi
    rcases h2 : bytesIndex (html.drop i) srcAttrStart with - | k
    · simp only [extractImageURL, hbi, h2, true_iff]
      rw [bytesIndex_eq_none_iff] at h2
      rw [infix_iff_exists_prefix_drop]
      rintro ⟨m, hm⟩
      exact h2 m hm
    · constructor
      · intro h
        rcases h3 : bytesIndex (html.drop (k + i + srcAttrStart.length)) srcAttrEnd
            with - | m <;>
          simp [extractImageURL, hbi, h2, h3] at h
      · intro h
        rw [bytesIndex_eq_some_iff] at h2
        exact absurd ((infix_iff_exists_prefix_drop _ _).mpr ⟨k, h2.1⟩) h
  · intro i j hi hj
    have hbi : bytesIndex html imgTagStart = some i :=
      (bytesIndex_eq_some_iff html imgTagStart i).mpr hi
    have hbj : bytesIndex (html.drop i) srcAttrStart = some j :=
      (bytesIndex_eq_some_iff (html.drop i) srcAttrStart j).mpr hj
    rcases h3 : bytesIndex (html.drop (j + i + srcAttrStart.length)) srcAttrEnd with - | m
    · simp only [extractImageURL, hbi, hbj, h3, true_iff]
      rw [bytesIndex_eq_none_iff] at h3
      rw [srcAttrEnd_def] at h3
      rw [single_prefix_absent_iff_not_mem] at h3
      exact h3
    · rw [bytesIndex_eq_some_iff] at h3
      have hmem : '"' ∈ html.drop (j + i + srcAttrStart.length) := by
        rcases h3.1 with ⟨u, hu⟩
        rw [srcAttrEnd_def] at hu
        have hin : '"' ∈ (html.drop (j + i + srcAttrStart.length)).drop m := by
          rw [← hu]; simp
        exact List.mem_of_mem_drop hin
      have hb3 : bytesIndex (html.drop (j + i + srcAttrStart.length)) srcAttrEnd = some m :=
        (bytesIndex_eq_some_iff _ srcAttrEnd m).mpr h3
      simp [extractImageURL, hbi, hbj, hb3, hmem]
  · intro e he u
    rw [he]
    simp

/-- Witness for C1: the marker alone yields the src-attribute error, through
the second clause of the characterization. -/
theorem extractImageURL_error_cases_witness :
    extractImageURL imgTagStart = .error .srcNotFound := by
  have h := (extractImageURL_error_cases imgTagStart).2.1 0 ⟨by decide, by omega⟩
  exact h.mpr (by decide)

/-- C4: for input that contains the marker (first occurrence right after the
prefix a) followed by a first src attribute opening and a value X free of
double quotes, extraction succeeds and returns exactly X, with no surrounding
whitespace or quote characters. -/
theorem extractImageURL_success (a b X c : List Char)
    (hm : ∀ k < a.length,
      ¬ imgTagStart <+: (a ++ imgTagStart ++ b ++ srcAttrStart ++ X ++ srcAttrEnd ++ c).drop k)
    (hs : ∀ k < imgTagStart.length + b.length,
      ¬ srcAttrStart <+: (imgTagStart ++ b ++ srcAttrStart ++ X ++ srcAttrEnd ++ c).drop k)
    (hX : '"' ∉ X) :
    extractImageURL (a ++ imgTagStart ++ b ++ srcAttrStart ++ X ++ srcAttrEnd ++ c) = .ok X := by
  have hdrop1 :
      (a ++ imgTagStart ++ b ++ srcAttrStart ++ X ++ srcAttrEnd ++ c).drop a.length =
        imgTagStart ++ b ++ srcAttrStart ++ X ++ srcAttrEnd ++ c := by
    simp only [List.append_assoc]
    exact List.drop_left a _
  have h1 : bytesIndex (a ++ imgTagStart ++ b ++ srcAttrStart ++ X ++ srcAttrEnd ++ c)
      imgTagStart = some a.length := by
    rw [bytesIndex_eq_some_iff]
    refine ⟨?_, hm⟩
    rw [hdrop1]
    simp only [List.append_assoc]
    exact List.prefix_append _ _
  have hdrop2 :
      (imgTagStart ++ b ++ srcAttrStart ++ X ++ srcAttrEnd ++ c).drop
          (imgTagStart.length + b.length) =
        srcAttrStart ++ X ++ srcAttrEnd ++ c := by
    have hgrp : imgTagStart ++ b ++ srcAttrStart ++ X ++ srcAttrEnd ++ c =
        (imgTagStart ++ b) ++ (srcAttrStart ++ X ++ srcAttrEnd ++ c) := by
      simp [List.append_assoc]
    rw [hgrp]
    exact List.drop_left' (by simp)
  have h2 : bytesIndex ((a ++ imgTagStart ++ b ++ srcAttrStart ++ X ++ srcAttrEnd ++ c).drop
      a.length) srcAttrStart = some (imgTagStart.length + b.length) := by
    rw [hdrop1, bytesIndex_eq_some_iff]
    refine ⟨?_, hs⟩
    rw [hdrop2]
    simp only [List.append_assoc]
    exact List.prefix_append _ _
  have hdrop3 :
      (a ++ imgTagStart ++ b ++ srcAttrStart ++ X ++ srcAttrEnd ++ c).drop
          (imgTagStart.length + b.length + a.length + srcAttrStart.length) =
        X ++ srcAttrEnd ++ c := by
    have hgrp : a ++ imgTagStart ++ b ++ srcAttrStart ++ X ++ srcAttrEnd ++ c =
        (a ++ imgTagStart ++ b ++ srcAttrStart) ++ (X ++ srcAttrEnd ++ c) := by
      simp [List.append_assoc]
    rw [hgrp]
    exact List.drop_left' (by simp; omega)
  have h3 : bytesIndex ((a ++ imgTagStart ++ b ++ srcAttrStart ++ X ++ srcAttrEnd ++ c).drop
      (imgTagStart.length + b.length + a.length + srcAttrStart.length)) srcAttrEnd =
        some X.length := by
    rw [hdrop3, bytesIndex_eq_some_iff]
    constructor
    · rw [List.append_assoc, List.drop_left]
      exact List.prefix_append _ _
    · intro k hk hpre
      rw [List.append_assoc, srcAttrEnd_def] at hpre
      rw [List.drop_append_eq_append_drop, Nat.sub_eq_zero_of_le (le_of_lt hk),
        List.drop_zero, List.drop_eq_getElem_cons hk] at hpre
      rcases hpre with ⟨u, hu⟩
      simp only [List.cons_append, List.nil_append, List.cons.injEq] at hu
      refine hX ?_
      rw [hu.1]
      exact List.getElem_mem hk
  simp only [extractImageURL, h1, h2, h3]
  rw [hdrop3, List.append_assoc, List.take_left]

/-- Witness for C4 at a concrete document. -/
theorem extractImageURL_success_witness :
    extractImageURL
        ([] ++ imgTagStart ++ [' '] ++ srcAttrStart ++ "u.jpg".toList ++ srcAttrEnd ++ ['>']) =
      .ok "u.jpg".toList :=
  extractImageURL_success [] [' '] "u.jpg".toList ['>'] (by decide) (by decide) (by decide)

/-- JSON values, as decoded by encoding/json. -/
inductive Json
  | null
  | bool (b : Bool)
  | num (n : Int)
  | str (s : String)
  | arr (elems : List Json)
  | obj (fields : List (String × Json))

/-- ASCII lower-casing of one character, for case-insensitive member names. -/
def lowerChar (c : Char) : Char :=
  if 'A' ≤ c ∧ c ≤ 'Z' then Char.ofNat (c.toNat + 32) else c

/-- Case-insensitive equality of member names (ASCII folding). -/
def nameFoldEq (a b : String) : Bool :=
  a.data.map lowerChar == b.data.map lowerChar

/-- Model of the encoding/json member lookup that fills one Go struct field:
object keys are matched case-insensitively against the tag and, with
duplicates, the value decoded last wins. -/
def getField (fields : List (String × Json)) (name : String) : Option Json :=
  ((fields.filter (fun p => nameFoldEq p.fst name)).getLast?).map Prod.snd

/-- Model of json.Decode into photoFuniaResponse (models.go), restricted to
the response.key path, the only field the pipeline reads: a missing object or
member leaves the Go zero value (the empty string), null leaves the target
unchanged, and a value of the wrong shape is a decode error (none).  Type
errors in the unused metadata members are not modelled. -/
def decodePhotoFuniaResponse (j : Json) : Option String :=
  match j with
  | .null => some ""
  | .obj fields =>
    match getField fields "response" with
    | none => some ""
    | some .null => some ""
    | some (.obj rfields) =>
      match getField rfields "key" with
      | none => some ""
      | some .null => some ""
      | some (.str s) => some s
      | some _ => none
    | some _ => none
  | _ => none

/-- The response object of the upload reply has no member that would populate
the key field. -/
def keyFieldAbsent (j : Json) : Bool :=
  match j with
  | .null => true
  | .obj fields =>
    match getField fields "response" with
    | none => true
    | some .null => true
    | some (.obj rfields) => (getField rfields "key").isNone
    | some _ => false
  | _ => false

/-- Response to the session-bootstrap GET: status code and Set-Cookie pairs. -/
structure BootstrapResp where
  status : Nat
  cookies : List (String × String)

/-- Response to the upload POST: status code and decoded JSON body (none when
the body is not well-formed JSON). -/
structure UploadResp where
  status : Nat
  body : Option Json

/-- Response to the effect-invocation POST: status code and the final resolved
URL after redirects. -/
structure EffectResp where
  status : Nat
  finalURL : String

/-- Response to a plain GET (result page or image): status code and body. -/
structure PageResp where
  status : Nat
  body : List Char

/-- The external world one effect operation runs against: the outcome of the
stream read and of each HTTP endpoint the pipeline may contact.  A none
outcome models a failing read or a transport error. -/
structure Env where
  readResult : Option (List Char)
  bootstrap : Option BootstrapResp
  upload : Option UploadResp
  effect : Option EffectResp
  resultPage : Option PageResp
  image : Option PageResp

/-- Observable side effects of one operation, in order of occurrence. -/
inductive Event
  | readStream
  | closeStream
  | bootstrapGet
  | uploadPost
  | effectPost
  | resultGet
  | imageGet
deriving DecidableEq

/-- Failure modes of the pipeline, one per distinct error site in the source. -/
inductive PFErr
  | sessHTTP
  | sessStatus
  | sessNoCookie
  | readFailed
  | uploadHTTP
  | uploadStatus
  | uploadDecode
  | emptyKey
  | effectHTTP
  | effectStatus
  | resultHTTP
  | resultStatus
  | extractErr (e : ExtractError)
  | imageHTTP
  | imageStatus
deriving DecidableEq

/-- Model of the cookie search loop in generateSessIDWithContext: the first
response cookie named PHPSESSID. -/
def findPHPSESSID : List (String × String) → Option String
  | [] => none
  | (n, v) :: rest => if n = "PHPSESSID" then some v else findPHPSESSID rest

/-- Model of generateSessIDWithContext: GET the cookie-warning endpoint, fail
on transport error, on a non-OK status, or when the PHPSESSID cookie is
absent; otherwise return the cookie value to store. -/
def generateSessID (b : Option BootstrapResp) : Except PFErr String × List Event :=
  match b with
  | none => (.error .sessHTTP, [.bootstrapGet])
  | some r =>
    if r.status ≠ 200 then (.error .sessStatus, [.bootstrapGet])
    else
      match findPHPSESSID r.cookies with
      | some v => (.ok v, [.bootstrapGet])
      | none => (.error .sessNoCookie, [.bootstrapGet])

/-- The Cookie header attached to every request built by the client. -/
def cookieHeader (sessid : String) : String :=
  "accept_cookie=true; PHPSESSID=" ++ sessid

/-- Model of createRequestWithContext: when the stored PHPSESSID is empty a
session is generated first; the request carries the Cookie header built from
the (possibly fresh) token.  Returns the header and the new stored token. -/
def createRequest (sess : String) (b : Option BootstrapResp) :
    Except PFErr (String × String) × List Event :=
  if sess = "" then
    match generateSessID b with
    | (.error e, tr) => (.error e, tr)
    | (.ok v, tr) => (.ok (cookieHeader v, v), tr)
  else (.ok (cookieHeader sess, sess), [])

/-- Model of uploadImageWithContext: the input stream is read in full, the
upload POST is sent, the status is checked and the body decoded; the deferred
Close of the stream runs when the function returns, on every path. -/
def uploadImage (env : Env) (sess : String) :
    Except PFErr (String × String) × List Event :=
  let body : Except PFErr (String × String) × List Event :=
    match env.readResult with
    | none => (.error .readFailed, [.readStream])
    | some _ =>
      match createRequest sess env.bootstrap with
      | (.error e, tr) => (.error e, .readStream :: tr)
      | (.ok (_, s1), tr) =>
        match env.upload with
        | none => (.error .uploadHTTP, .readStream :: (tr ++ [.uploadPost]))
        | some r =>
          if r.status ≠ 200 then
            (.error .uploadStatus, .readStream :: (tr ++ [.uploadPost]))
          else
            match r.body with
            | none => (.error .uploadDecode, .readStream :: (tr ++ [.uploadPost]))
            | some j =>
              match decodePhotoFuniaResponse j with
              | none => (.error .uploadDecode, .readStream :: (tr ++ [.uploadPost]))
              | some key => (.ok (key, s1), .readStream :: (tr ++ [.uploadPost]))
  (body.fst, body.snd ++ [.closeStream])

/-- Model of getResultImageWithContext: GET the result page, scrape it with
extractImageURL, then GET the scraped image URL and return its bytes. -/
def getResultImage (env : Env) (sess : String) :
    Except PFErr (List Char) × List Event :=
  match createRequest sess env.bootstrap with
  | (.error e, tr) => (.error e, tr)
  | (.ok (_, s1), tr) =>
    match env.resultPage with
    | none => (.error .resultHTTP, tr ++ [.resultGet])
    | some page =>
      if page.status ≠ 200 then (.error .resultStatus, tr ++ [.resultGet])
      else
        match extractImageURL page.body with
        | .error e => (.error (.extractErr e), tr ++ [.resultGet])
        | .ok _ =>
          match createRequest s1 env.bootstrap with
          | (.error e, tr2) => (.error e, tr ++ [.resultGet] ++ tr2)
          | (.ok (_, _), tr2) =>
            match env.image with
            | none => (.error .imageHTTP, tr ++ [.resultGet] ++ tr2 ++ [.imageGet])
            | some imgr =>
              if imgr.status ≠ 200 then
                (.error .imageStatus, tr ++ [.resultGet] ++ tr2 ++ [.imageGet])
              else (.ok imgr.body, tr ++ [.resultGet] ++ tr2 ++ [.imageGet])

/-- Model of Go map assignment on a map represented as an association list
with unique keys: replace the value when the key exists, append otherwise. -/
def mapInsert (m : List (String × String)) (k v : String) : List (String × String) :=
  match m with
  | [] => [(k, v)]
  | (k0, v0) :: rest =>
    if k0 = k then (k, v) :: rest else (k0, v0) :: mapInsert rest k v

/-- The fields written to the multipart body of the effect-invocation request:
the caller-supplied parameters with the image key merged in as "image". -/
def effectRequestFields (params : List (String × String)) (imageKey : String) :
    List (String × String) :=
  mapInsert params "image" imageKey

/-- Model of applyEffectWithContext: upload, reject an empty image key, build
the multipart field map, POST the effect invocation, then fetch the result. -/
def applyEffect (env : Env) (sess : String) (params : List (String × String)) :
    Except PFErr (List Char) × List Event :=
  match uploadImage env sess with
  | (.error e, tr) => (.error e, tr)
  | (.ok (imageKey, s1), tr) =>
    if imageKey = "" then (.error .emptyKey, tr)
    else
      let _fields := effectRequestFields params imageKey
      match createRequest s1 env.bootstrap with
      | (.error e, tr2) => (.error e, tr ++ tr2)
      | (.ok (_, s2), tr2) =>
        match env.effect with
        | none => (.error .effectHTTP, tr ++ tr2 ++ [.effectPost])
        | some er =>
          if er.status ≠ 200 then (.error .effectStatus, tr ++ tr2 ++ [.effectPost])
          else
            match getResultImage env s2 with
            | (res, tr3) => (res, tr ++ tr2 ++ [.effectPost] ++ tr3)

/-- The parameter map built by ClownifyWithContext before the shared pipeline
runs: the fixed category and crop entries plus the hat toggle. -/
def clownifyParams (includeHat : Bool) : List (String × String) :=
  let params := [("current-category", "all_effects"), ("image:crop", "0.0.961.1093")]
  if includeHat then mapInsert params "hat" "on" else mapInsert params "hat" "off"

/-- The parameter map built by FatifyWithContext. -/
def fatifyParams : List (String × String) :=
  [("current-category", "faces"), ("image:crop", "0.0.961.1093"), ("size", "XXXXXL")]

/-- Model of ClownifyWithContext as parameter preparation over applyEffect. -/
def clownify (env : Env) (sess : String) (includeHat : Bool) :
    Except PFErr (List Char) × List Event :=
  applyEffect env sess (clownifyParams includeHat)

/-- Model of FatifyWithContext as parameter preparation over applyEffect. -/
def fatify (env : Env) (sess : String) : Except PFErr (List Char) × List Event :=
  applyEffect env sess fatifyParams

/-- A sequence of createRequest calls sharing one client instance: the stored
session threads through, each call gets its own bootstrap outcome, and the
Cookie headers of the built requests are collected. -/
def runRequests (sess : String) :
    List (Option BootstrapResp) → Except PFErr (List String × String) × List Event
  | [] => (.ok ([], sess), [])
  | b :: bs =>
    match createRequest sess b with
    | (.error e, tr) => (.error e, tr)
    | (.ok (hdr, s1), tr) =>
      match runRequests s1 bs with
      | (.error e, tr2) => (.error e, tr ++ tr2)
      | (.ok (hdrs, s2), tr2) => (.ok (hdr :: hdrs, s2), tr ++ tr2)

theorem generateSessID_snd (b : Option BootstrapResp) :
    (generateSessID b).snd = [Event.bootstrapGet] := by
  rcases b with - | r
  · rfl
  · by_cases h : r.status ≠ 200
    · simp [generateSessID, h]
    · rcases hf : findPHPSESSID r.cookies with - | v <;> simp [generateSessID, h, hf]

theorem createRequest_ne (sess : String) (hs : sess ≠ "") (b : Option BootstrapResp) :
    createRequest sess b = (.ok (cookieHeader sess, sess), []) := by
  simp [createRequest, hs]

theorem runRequests_of_ne (sess : String) (hs : sess ≠ "")
    (bs : List (Option BootstrapResp)) :
    runRequests sess bs = (.ok (List.replicate bs.length (cookieHeader sess), sess), []) := by
  induction bs with
  | nil => simp [runRequests]
  | cons b bs ih => simp [runRequests, createRequest_ne sess hs, ih, List.replicate_succ]

/-- An upload reply whose key is the string abc123. -/
def okJson : Json := .obj [("response", .obj [("key", .str "abc123")])]

/-- A result page from which extraction succeeds. -/
def resultHtml : List Char :=
  "<img id=\"result-image\" src=\"https://x/y.jpg\">".toList

/-- An environment in which every step of the pipeline succeeds. -/
def envOK : Env :=
  ⟨some "img".toList, some ⟨200, [("PHPSESSID", "tok")]⟩, some ⟨200, some okJson⟩,
    some ⟨200, "u"⟩, some ⟨200, resultHtml⟩, some ⟨200, "DEADBEEF".toList⟩⟩

theorem uploadImage_ne (env : Env) (sess : String) (hs : sess ≠ "") :
    Event.bootstrapGet ∉ (uploadImage env sess).snd
  ∧ ∀ k s1, (uploadImage env sess).fst = .ok (k, s1) → s1 = sess := by
  rcases hr : env.readResult with - | d
  · constructor
    · simp [uploadImage, hr]
    · intro k s1 h
      simp [uploadImage, hr] at h
  · rcases hu : env.upload with - | r
    · constructor
      · simp [uploadImage, hr, createRequest_ne sess hs, hu]
      · intro k s1 h
        simp [uploadImage, hr, createRequest_ne sess hs, hu] at h
    · by_cases hst : r.status ≠ 200
      · constructor
        · simp [uploadImage, hr, createRequest_ne sess hs, hu, hst]
        · intro k s1 h
          simp [uploadImage, hr, createRequest_ne sess hs, hu, hst] at h
      · rcases hb : r.body with - | j
        · constructor
          · simp [uploadImage, hr, createRequest_ne sess hs, hu, hst, hb]
          · intro k s1 h
            simp [uploadImage, hr, createRequest_ne sess hs, hu, hst, hb] at h
        · rcases hd : decodePhotoFuniaResponse j with - | key
          · constructor
            · simp [uploadImage, hr, createRequest_ne sess hs, hu, hst, hb, hd]
            · intro k s1 h
              simp [uploadImage, hr, createRequest_ne sess hs, hu, hst, hb, hd] at h
          · constructor
            · simp [uploadImage, hr, createRequest_ne sess hs, hu, hst, hb, hd]
            · intro k s1 h
              simp [uploadImage, hr, createRequest_ne sess hs, hu, hst, hb, hd] at h
              exact h.2.symm

theorem getResultImage_ne (env : Env) (sess : String) (hs : sess ≠ "") :
    Event.bootstrapGet ∉ (getResultImage env sess).snd := by
  rcases hp : env.resultPage with - | page
  · simp [getResultImage, createRequest_ne sess hs, hp]
  · by_cases hst : page.status ≠ 200
    · simp [getResultImage, createRequest_ne sess hs, hp, hst]
    · rcases hx : extractImageURL page.body with e0 | u
      · simp [getResultImage, createRequest_ne sess hs, hp, hst, hx]
      · rcases hi : env.image with - | imgr
        · simp [getResultImage, createRequest_ne sess hs, hp, hst, hx, hi]
        · by_cases hst2 : imgr.status ≠ 200
          · simp [getResultImage, createRequest_ne sess hs, hp, hst, hx, hi, hst2]
          · simp [getResultImage, createRequest_ne sess hs, hp, hst, hx, hi, hst2]

theorem applyEffect_ne (env : Env) (sess : String) (params : List (String × String))
    (hs : sess ≠ "") : Event.bootstrapGet ∉ (applyEffect env sess params).snd := by
  have hup := uploadImage_ne env sess hs
  rcases hu : uploadImage env sess with ⟨res, trU⟩
  rw [hu] at hup
  have hBG : Event.bootstrapGet ∉ trU := hup.1
  cases res with
  | error e =>
    have hsnd : (applyEffect env sess params).snd = trU := by simp [applyEffect, hu]
    rw [hsnd]
    exact hBG
  | ok pr =>
    rcases pr with ⟨key, s1⟩
    have hs1 : s1 = sess := hup.2 key s1 rfl
    rw [hs1] at hu
    by_cases hk : key = ""
    · have hsnd : (applyEffect env sess params).snd = trU := by simp [applyEffect, hu, hk]
      rw [hsnd]
      exact hBG
    · rcases hef : env.effect with - | er
      · have hsnd : (applyEffect env sess params).snd = trU ++ [Event.effectPost] := by
          simp [applyEffect, hu, hk, createRequest_ne sess hs, hef]
        rw [hsnd]
        simp [hBG]
      · by_cases hst : er.status ≠ 200
        · have hsnd : (applyEffect env sess params).snd = trU ++ [Event.effectPost] := by
            simp [applyEffect, hu, hk, createRequest_ne sess hs, hef, hst]
          rw [hsnd]
          simp [hBG]
        · have hg := getResultImage_ne env sess hs
          rcases hgr : getResultImage env sess with ⟨res3, tr3⟩
          rw [hgr] at hg
          have hsnd : (applyEffect env sess params).snd =
              trU ++ [Event.effectPost] ++ tr3 := by
            simp [applyEffect, hu, hk, createRequest_ne sess hs, hef, hst, hgr]
          rw [hsnd]
          simp [hBG, hg]

/-- C2 (amended): a client whose stored session token is non-empty issues no
bootstrap request and reuses the token's Cookie header for every request of
the operation; a client with no token bootstraps exactly once on the first
request and, provided the acquired cookie value is non-empty, stores it and
reuses it for every subsequent request on the same instance. -/
theorem session_reuse (sess : String) (hsess : sess ≠ "")
    (bs : List (Option BootstrapResp)) (b : Option BootstrapResp) (v : String)
    (hgen : (generateSessID b).fst = .ok v) (hv : v ≠ "") :
    runRequests sess bs = (.ok (List.replicate bs.length (cookieHeader sess), sess), [])
  ∧ runRequests "" (b :: bs) =
      (.ok (cookieHeader v :: List.replicate bs.length (cookieHeader v), v),
        [.bootstrapGet])
  ∧ ∀ env params, Event.bootstrapGet ∉ (applyEffect env sess params).snd := by
  refine ⟨runRequests_of_ne sess hsess bs, ?_,
    fun env params => applyEffect_ne env sess params hsess⟩
  have hb : generateSessID b = (.ok v, [Event.bootstrapGet]) := by
    calc generateSessID b = ((generateSessID b).fst, (generateSessID b).snd) := rfl
    _ = (.ok v, [Event.bootstrapGet]) := by rw [hgen, generateSessID_snd]
  simp [runRequests, createRequest, hb, runRequests_of_ne v hv bs]

/-- A bootstrap response carrying a non-empty session cookie. -/
def tokBootstrap : BootstrapResp := ⟨200, [("PHPSESSID", "tok")]⟩

/-- Witness for C2 (amended) at concrete inputs. -/
theorem session_reuse_witness :
    runRequests "s" [none] = (.ok ([cookieHeader "s"], "s"), [])
  ∧ runRequests "" [some tokBootstrap, none] =
      (.ok ([cookieHeader "tok", cookieHeader "tok"], "tok"), [.bootstrapGet])
  ∧ Event.bootstrapGet ∉ (applyEffect envOK "s" fatifyParams).snd := by
  have h := session_reuse "s" (by decide) [none] (some tokBootstrap) "tok" rfl
    (by decide)
  exact ⟨by simpa using h.1, by simpa using h.2.1, h.2.2 envOK fatifyParams⟩

/-- A bootstrap response whose PHPSESSID cookie has the empty value. -/
def emptyCookieBootstrap : BootstrapResp := ⟨200, [("PHPSESSID", "")]⟩

/-- Counterexample to C2 as stated: a bootstrap response can set an
empty-valued PHPSESSID cookie; the value is stored, yet the next request on
the same client bootstraps again, so one operation issues two bootstrap
requests instead of exactly one and the stored token is regenerated. -/
theorem session_regenerated_counterexample :
    (generateSessID (some emptyCookieBootstrap)).fst = .ok ""
  ∧ (runRequests "" [some emptyCookieBootstrap, some emptyCookieBootstrap]).snd.count
      Event.bootstrapGet = 2 := by
  constructor
  · rfl
  · decide


/-- Counterexample to C3 as stated: on a fully successful run the input
stream's Close (deferred to the return of the upload step) happens after the
upload POST is issued, not before it. -/
theorem close_after_uploadPost_counterexample :
    (applyEffect envOK "s" fatifyParams).snd =
      [.readStream, .uploadPost, .closeStream, .effectPost, .resultGet, .imageGet]
  ∧ ¬ ((applyEffect envOK "s" fatifyParams).snd.indexOf Event.closeStream <
        (applyEffect envOK "s" fatifyParams).snd.indexOf Event.uploadPost) := by
  constructor
  · decide
  · decide

theorem createRequest_snd (sess : String) (b : Option BootstrapResp) :
    (createRequest sess b).snd = [] ∨ (createRequest sess b).snd = [Event.bootstrapGet] := by
  by_cases hs : sess = ""
  · right
    rcases hg : generateSessID b with ⟨res, tr⟩
    have htr : tr = [Event.bootstrapGet] := by
      have h := generateSessID_snd b
      rw [hg] at h
      exact h
    cases res <;> simp [createRequest, hs, hg, htr]
  · left
    simp [createRequest, hs]

theorem createRequest_snd_mem (sess : String) (b : Option BootstrapResp) :
    ∀ e ∈ (createRequest sess b).snd, e = Event.bootstrapGet := by
  rcases createRequest_snd sess b with h | h <;> rw [h] <;> simp

theorem uploadImage_snd_shape (env : Env) (sess : String) :
    ∃ t, (uploadImage env sess).snd = Event.readStream :: (t ++ [Event.closeStream]) ∧
      ∀ e ∈ t, e = Event.bootstrapGet ∨ e = Event.uploadPost := by
  have hcr := createRequest_snd_mem sess env.bootstrap
  rcases hc : createRequest sess env.bootstrap with ⟨res, tr⟩
  rw [hc] at hcr
  have hmem : ∀ e ∈ tr ++ [Event.uploadPost],
      e = Event.bootstrapGet ∨ e = Event.uploadPost := by
    intro e he
    rcases List.mem_append.mp he with h | h
    · exact Or.inl (hcr e h)
    · simp at h
      exact Or.inr h
  rcases hr : env.readResult with - | d
  · exact ⟨[], by simp [uploadImage, hr], by simp⟩
  cases res with
  | error e => exact ⟨tr, by simp [uploadImage, hr, hc], fun e he => Or.inl (hcr e he)⟩
  | ok pr =>
    rcases hu : env.upload with - | r
    · exact ⟨tr ++ [Event.uploadPost], by simp [uploadImage, hr, hc, hu], hmem⟩
    by_cases hst : r.status ≠ 200
    · exact ⟨tr ++ [Event.uploadPost], by simp [uploadImage, hr, hc, hu, hst], hmem⟩
    rcases hb : r.body with - | j
    · exact ⟨tr ++ [Event.uploadPost], by simp [uploadImage, hr, hc, hu, hst, hb], hmem⟩
    rcases hd : decodePhotoFuniaResponse j with - | key
    · exact ⟨tr ++ [Event.uploadPost], by simp [uploadImage, hr, hc, hu, hst, hb, hd], hmem⟩
    · exact ⟨tr ++ [Event.uploadPost], by simp [uploadImage, hr, hc, hu, hst, hb, hd], hmem⟩

theorem getResultImage_snd_mem (env : Env) (sess : String) :
    ∀ e ∈ (getResultImage env sess).snd,
      e = Event.bootstrapGet ∨ e = Event.resultGet ∨ e = Event.imageGet := by
  have hcr := createRequest_snd_mem sess env.bootstrap
  rcases hc : createRequest sess env.bootstrap with ⟨res, tr⟩
  rw [hc] at hcr
  cases res with
  | error e =>
    intro e he
    have hsnd : (getResultImage env sess).snd = tr := by simp [getResultImage, hc]
    rw [hsnd] at he
    exact Or.inl (hcr e he)
  | ok pr =>
    rcases pr with ⟨hdr, s1⟩
    have hcr2 := createRequest_snd_mem s1 env.bootstrap
    rcases hc2 : createRequest s1 env.bootstrap with ⟨res2, tr2⟩
    rw [hc2] at hcr2
    have hbig : ∀ e ∈ tr ++ [Event.resultGet] ++ tr2 ++ [Event.imageGet],
        e = Event.bootstrapGet ∨ e = Event.resultGet ∨ e = Event.imageGet := by
      intro e he
      simp only [List.append_assoc, List.mem_append, List.mem_singleton] at he
      rcases he with h | h | h | h
      · exact Or.inl (hcr e h)
      · exact Or.inr (Or.inl h)
      · exact Or.inl (hcr2 e h)
      · exact Or.inr (Or.inr h)
    have hsmall : ∀ e ∈ tr ++ [Event.resultGet],
        e = Event.bootstrapGet ∨ e = Event.resultGet ∨ e = Event.imageGet := by
      intro e he
      rcases List.mem_append.mp he with h | h
      · exact Or.inl (hcr e h)
      · simp at h
        exact Or.inr (Or.inl h)
    intro e he
    rcases hp : env.resultPage with - | page
    · have hsnd : (getResultImage env sess).snd = tr ++ [Event.resultGet] := by
        simp [getResultImage, hc, hp]
      rw [hsnd] at he
      exact hsmall e he
    by_cases hst : page.status ≠ 200
    · have hsnd : (getResultImage env sess).snd = tr ++ [Event.resultGet] := by
        simp [getResultImage, hc, hp, hst]
      rw [hsnd] at he
      exact hsmall e he
    rcases hx : extractImageURL page.body with e0 | u
    · have hsnd : (getResultImage env sess).snd = tr ++ [Event.resultGet] := by
        simp [getResultImage, hc, hp, hst, hx]
      rw [hsnd] at he
      exact hsmall e he
    cases res2 with
    | error e2 =>
      have hsnd : (getResultImage env sess).snd = tr ++ [Event.resultGet] ++ tr2 := by
        simp [getResultImage, hc, hp, hst, hx, hc2]
      rw [hsnd] at he
      simp only [List.append_assoc, List.mem_append, List.mem_singleton] at he
      rcases he with h | h | h
      · exact Or.inl (hcr e h)
      · exact Or.inr (Or.inl h)
      · exact Or.inl (hcr2 e h)
    | ok pr2 =>
      rcases pr2 with ⟨hdr2, s2⟩
      rcases hi : env.image with - | imgr
      · have hsnd : (getResultImage env sess).snd =
            tr ++ [Event.resultGet] ++ tr2 ++ [Event.imageGet] := by
          simp [getResultImage, hc, hp, hst, hx, hc2, hi]
        rw [hsnd] at he
        exact hbig e he
      · by_cases hst2 : imgr.status ≠ 200
        · have hsnd : (getResultImage env sess).snd =
              tr ++ [Event.resultGet] ++ tr2 ++ [Event.imageGet] := by
            simp [getResultImage, hc, hp, hst, hx, hc2, hi, hst2]
          rw [hsnd] at he
          exact hbig e he
        · have hsnd : (getResultImage env sess).snd =
              tr ++ [Event.resultGet] ++ tr2 ++ [Event.imageGet] := by
            simp [getResultImage, hc, hp, hst, hx, hc2, hi, hst2]
          rw [hsnd] at he
          exact hbig e he

/-- C3 (amended): in every execution, whatever the environment does, the input
stream is read exactly once and closed exactly once; the Close happens at the
return of the upload step — after the upload POST when one is issued, but
before any effect-invocation request — and the stream is closed even when a
step fails. -/
theorem stream_closed_once (env : Env) (sess : String) (params : List (String × String)) :
    ∃ t rest, (applyEffect env sess params).snd =
        Event.readStream :: (t ++ Event.closeStream :: rest)
      ∧ Event.readStream ∉ t ∧ Event.closeStream ∉ t ∧ Event.effectPost ∉ t
      ∧ Event.readStream ∉ rest ∧ Event.closeStream ∉ rest := by
  rcases uploadImage_snd_shape env sess with ⟨t, hts, htm⟩
  have htR : Event.readStream ∉ t := by
    intro h
    rcases htm _ h with h' | h' <;> exact absurd h' (by decide)
  have htC : Event.closeStream ∉ t := by
    intro h
    rcases htm _ h with h' | h' <;> exact absurd h' (by decide)
  have htE : Event.effectPost ∉ t := by
    intro h
    rcases htm _ h with h' | h' <;> exact absurd h' (by decide)
  rcases hu : uploadImage env sess with ⟨res, trU⟩
  rw [hu] at hts
  change trU = Event.readStream :: (t ++ [Event.closeStream]) at hts
  cases res with
  | error e =>
    refine ⟨t, [], ?_, htR, htC, htE, by simp, by simp⟩
    have hsnd : (applyEffect env sess params).snd = trU := by simp [applyEffect, hu]
    rw [hsnd, hts]
  | ok pr =>
    rcases pr with ⟨key, s1⟩
    by_cases hk : key = ""
    · refine ⟨t, [], ?_, htR, htC, htE, by simp, by simp⟩
      have hsnd : (applyEffect env sess params).snd = trU := by simp [applyEffect, hu, hk]
      rw [hsnd, hts]
    · have hcr2 := createRequest_snd_mem s1 env.bootstrap
      rcases hc2 : createRequest s1 env.bootstrap with ⟨res2, tr2⟩
      rw [hc2] at hcr2
      have h2R : Event.readStream ∉ tr2 := by
        intro h
        exact absurd (hcr2 _ h) (by decide)
      have h2C : Event.closeStream ∉ tr2 := by
        intro h
        exact absurd (hcr2 _ h) (by decide)
      cases res2 with
      | error e2 =>
        refine ⟨t, tr2, ?_, htR, htC, htE, h2R, h2C⟩
        have hsnd : (applyEffect env sess params).snd = trU ++ tr2 := by
          simp [applyEffect, hu, hk, hc2]
        rw [hsnd, hts]
        simp
      | ok pr2 =>
        rcases pr2 with ⟨hdr2, s2⟩
        have hfin : ∀ rest2, (∀ x ∈ rest2, x ≠ Event.readStream ∧ x ≠ Event.closeStream) →
            (applyEffect env sess params).snd = trU ++ rest2 →
            ∃ t rest, (applyEffect env sess params).snd =
                Event.readStream :: (t ++ Event.closeStream :: rest)
              ∧ Event.readStream ∉ t ∧ Event.closeStream ∉ t ∧ Event.effectPost ∉ t
              ∧ Event.readStream ∉ rest ∧ Event.closeStream ∉ rest := by
          intro rest2 hmem hsnd
          refine ⟨t, rest2, ?_, htR, htC, htE,
            fun h => (hmem _ h).1 rfl, fun h => (hmem _ h).2 rfl⟩
          rw [hsnd, hts]
          simp
        rcases hef : env.effect with - | er
        · refine hfin (tr2 ++ [Event.effectPost]) ?_ ?_
          · intro x hx
            rcases List.mem_append.mp hx with h | h
            · exact ⟨fun he => h2R (he ▸ h), fun he => h2C (he ▸ h)⟩
            · simp at h
              subst h
              exact ⟨by decide, by decide⟩
          · simp [applyEffect, hu, hk, hc2, hef]
        · by_cases hst : er.status ≠ 200
          · refine hfin (tr2 ++ [Event.effectPost]) ?_ ?_
            · intro x hx
              rcases List.mem_append.mp hx with h | h
              · exact ⟨fun he => h2R (he ▸ h), fun he => h2C (he ▸ h)⟩
              · simp at h
                subst h
                exact ⟨by decide, by decide⟩
            · simp [applyEffect, hu, hk, hc2, hef, hst]
          · have hgm := getResultImage_snd_mem env s2
            rcases hg : getResultImage env s2 with ⟨res3, tr3⟩
            rw [hg] at hgm
            refine hfin (tr2 ++ [Event.effectPost] ++ tr3) ?_ ?_
            · intro x hx
              simp only [List.append_assoc, List.mem_append, List.mem_singleton] at hx
              rcases hx with h | h | h
              · exact ⟨fun he => h2R (he ▸ h), fun he => h2C (he ▸ h)⟩
              · subst h
                exact ⟨by decide, by decide⟩
              · rcases hgm _ h with h' | h' | h' <;> subst h' <;>
                  exact ⟨by decide, by decide⟩
            · simp [applyEffect, hu, hk, hc2, hef, hst, hg]

/-- C6: when the upload POST answers with a non-success status such as 500,
the operation fails with the upload status error and no further request is
issued: no effect invocation, no result-page fetch, no image download. -/
theorem upload_status_failure_stops (env : Env) (sess : String)
    (params : List (String × String)) (d : List Char) (r : UploadResp)
    (hsess : sess ≠ "") (hread : env.readResult = some d)
    (hup : env.upload = some r) (hstat : r.status ≠ 200) :
    (applyEffect env sess params).fst = .error .uploadStatus
  ∧ Event.effectPost ∉ (applyEffect env sess params).snd
  ∧ Event.resultGet ∉ (applyEffect env sess params).snd
  ∧ Event.imageGet ∉ (applyEffect env sess params).snd := by
  have hup' : uploadImage env sess = (.error .uploadStatus,
      [Event.readStream, Event.uploadPost, Event.closeStream]) := by
    simp [uploadImage, hread, createRequest_ne sess hsess, hup, hstat]
  refine ⟨?_, ?_, ?_, ?_⟩ <;> simp [applyEffect, hup']

/-- An environment whose upload endpoint answers 500. -/
def env500 : Env := ⟨some ['i'], none, some ⟨500, none⟩, none, none, none⟩

/-- Witness for C6 at a concrete environment. -/
theorem upload_status_failure_stops_witness :
    (applyEffect env500 "s" fatifyParams).fst = .error .uploadStatus
  ∧ Event.effectPost ∉ (applyEffect env500 "s" fatifyParams).snd
  ∧ Event.resultGet ∉ (applyEffect env500 "s" fatifyParams).snd
  ∧ Event.imageGet ∉ (applyEffect env500 "s" fatifyParams).snd :=
  upload_status_failure_stops env500 "s" fatifyParams ['i'] ⟨500, none⟩
    (by decide) rfl rfl (by decide)

/-- C5: an upload response that decodes with an empty key makes the operation
fail with the dedicated empty-key error and no effect invocation is issued;
a response whose body does not decode fails with the distinct decode error. -/
theorem empty_key_failure (env envd : Env) (sess : String)
    (params : List (String × String)) (d dd : List Char) (j : Json)
    (hsess : sess ≠ "")
    (hread : env.readResult = some d)
    (hup : env.upload = some ⟨200, some j⟩)
    (hkey : decodePhotoFuniaResponse j = some "")
    (hreadd : envd.readResult = some dd)
    (hupd : envd.upload = some ⟨200, none⟩) :
    (applyEffect env sess params).fst = .error .emptyKey
  ∧ Event.effectPost ∉ (applyEffect env sess params).snd
  ∧ (applyEffect envd sess params).fst = .error .uploadDecode
  ∧ PFErr.emptyKey ≠ PFErr.uploadDecode := by
  have h1 : uploadImage env sess = (.ok ("", sess),
      [Event.readStream, Event.uploadPost, Event.closeStream]) := by
    simp [uploadImage, hread, createRequest_ne sess hsess, hup, hkey]
  have h2 : uploadImage envd sess = (.error .uploadDecode,
      [Event.readStream, Event.uploadPost, Event.closeStream]) := by
    simp [uploadImage, hreadd, createRequest_ne sess hsess, hupd]
  refine ⟨by simp [applyEffect, h1], by simp [applyEffect, h1],
    by simp [applyEffect, h2], by decide⟩

/-- An upload reply whose key member is explicitly the empty string. -/
def emptyKeyJson : Json := .obj [("response", .obj [("key", .str "")])]

/-- An environment whose upload answers 200 with an empty key. -/
def envEmptyKey : Env := ⟨some ['i'], none, some ⟨200, some emptyKeyJson⟩, none, none, none⟩

/-- An environment whose upload answers 200 with a body that is not JSON. -/
def envBadJson : Env := ⟨some ['i'], none, some ⟨200, none⟩, none, none, none⟩

/-- Witness for C5 at concrete environments. -/
theorem empty_key_failure_witness :
    (applyEffect envEmptyKey "s" fatifyParams).fst = .error .emptyKey
  ∧ Event.effectPost ∉ (applyEffect envEmptyKey "s" fatifyParams).snd
  ∧ (applyEffect envBadJson "s" fatifyParams).fst = .error .uploadDecode
  ∧ PFErr.emptyKey ≠ PFErr.uploadDecode :=
  empty_key_failure envEmptyKey envBadJson "s" fatifyParams ['i'] ['i'] emptyKeyJson
    (by decide) rfl rfl rfl rfl rfl

/-- C9: an upload response that decodes successfully but whose response object
has no key member at all yields the Go zero value, so the operation fails with
the same empty-key error as for an explicitly empty key, and is not reported
as a decode failure. -/
theorem absent_key_behaves_as_empty (env : Env) (sess : String)
    (params : List (String × String)) (d : List Char) (j : Json) (k : String)
    (hsess : sess ≠ "") (hread : env.readResult = some d)
    (hup : env.upload = some ⟨200, some j⟩)
    (habsent : keyFieldAbsent j = true)
    (hdec : decodePhotoFuniaResponse j = some k) :
    k = ""
  ∧ (applyEffect env sess params).fst = .error .emptyKey
  ∧ (applyEffect env sess params).fst ≠ .error .uploadDecode := by
  have hk : k = "" := by
    cases j with
    | null =>
      simp [decodePhotoFuniaResponse] at hdec
      exact hdec.symm
    | obj fields =>
      rcases hresp : getField fields "response" with - | rv
      · simp [decodePhotoFuniaResponse, hresp] at hdec
        exact hdec.symm
      · cases rv with
        | null =>
          simp [decodePhotoFuniaResponse, hresp] at hdec
          exact hdec.symm
        | obj rfields =>
          have hnone : getField rfields "key" = none := by
            simp [keyFieldAbsent, hresp, Option.isNone_iff_eq_none] at habsent
            exact habsent
          simp [decodePhotoFuniaResponse, hresp, hnone] at hdec
          exact hdec.symm
        | bool b => simp [keyFieldAbsent, hresp] at habsent
        | num n => simp [keyFieldAbsent, hresp] at habsent
        | str s => simp [keyFieldAbsent, hresp] at habsent
        | arr es => simp [keyFieldAbsent, hresp] at habsent
    | bool b => simp [keyFieldAbsent] at habsent
    | num n => simp [keyFieldAbsent] at habsent
    | str s => simp [keyFieldAbsent] at habsent
    | arr es => simp [keyFieldAbsent] at habsent
  subst hk
  have h1 : uploadImage env sess = (.ok ("", sess),
      [Event.readStream, Event.uploadPost, Event.closeStream]) := by
    simp [uploadImage, hread, createRequest_ne sess hsess, hup, hdec]
  refine ⟨rfl, by simp [applyEffect, h1], by simp [applyEffect, h1]⟩

/-- An upload reply with a response object and no key member. -/
def noKeyJson : Json := .obj [("response", .obj [("server", .num 2)])]

/-- An environment whose upload answers 200 with a keyless response object. -/
def envNoKey : Env := ⟨some ['i'], none, some ⟨200, some noKeyJson⟩, none, none, none⟩

/-- Witness for C9 at a concrete environment. -/
theorem absent_key_behaves_as_empty_witness :
    ("" : String) = ""
  ∧ (applyEffect envNoKey "s" fatifyParams).fst = .error .emptyKey
  ∧ (applyEffect envNoKey "s" fatifyParams).fst ≠ .error .uploadDecode :=
  absent_key_behaves_as_empty envNoKey "s" fatifyParams ['i'] noKeyJson ""
    (by decide) rfl rfl rfl rfl

/-- C8: when the session bootstrap fails — transport error, non-success
status, or no PHPSESSID cookie — the operation fails with the corresponding
session error and the upload POST is never issued. -/
theorem session_failure_stops (env : Env) (params : List (String × String))
    (d : List Char) (e : PFErr)
    (hread : env.readResult = some d)
    (hgen : (generateSessID env.bootstrap).fst = .error e) :
    (applyEffect env "" params).fst = .error e
  ∧ (e = .sessHTTP ∨ e = .sessStatus ∨ e = .sessNoCookie)
  ∧ Event.uploadPost ∉ (applyEffect env "" params).snd := by
  have hgp : generateSessID env.bootstrap = (.error e, [Event.bootstrapGet]) := by
    calc generateSessID env.bootstrap
        = ((generateSessID env.bootstrap).fst, (generateSessID env.bootstrap).snd) := rfl
    _ = (.error e, [Event.bootstrapGet]) := by rw [hgen, generateSessID_snd]
  have hcr : createRequest "" env.bootstrap = (.error e, [Event.bootstrapGet]) := by
    simp [createRequest, hgp]
  have hup : uploadImage env "" = (.error e,
      [Event.readStream, Event.bootstrapGet, Event.closeStream]) := by
    simp [uploadImage, hread, hcr]
  refine ⟨by simp [applyEffect, hup], ?_, by simp [applyEffect, hup]⟩
  rcases hb : env.bootstrap with - | r
  · rw [hb] at hgen
    simp [generateSessID] at hgen
    exact Or.inl hgen.symm
  · by_cases hst : r.status ≠ 200
    · rw [hb] at hgen
      simp [generateSessID, hst] at hgen
      exact Or.inr (Or.inl hgen.symm)
    · rcases hf : findPHPSESSID r.cookies with - | v
      · rw [hb] at hgen
        simp [generateSessID, hst, hf] at hgen
        exact Or.inr (Or.inr hgen.symm)
      · rw [hb] at hgen
        simp [generateSessID, hst, hf] at hgen

/-- An environment whose bootstrap answers 200 without any cookie. -/
def envNoCookie : Env := ⟨some ['i'], some ⟨200, []⟩, none, none, none, none⟩

/-- Witness for C8 at a concrete environment. -/
theorem session_failure_stops_witness :
    (applyEffect envNoCookie "" fatifyParams).fst = .error .sessNoCookie
  ∧ (PFErr.sessNoCookie = .sessHTTP ∨ PFErr.sessNoCookie = .sessStatus ∨
      PFErr.sessNoCookie = .sessNoCookie)
  ∧ Event.uploadPost ∉ (applyEffect envNoCookie "" fatifyParams).snd :=
  session_failure_stops envNoCookie fatifyParams ['i'] .sessNoCookie rfl rfl

/-- C10: every HTTP step of the pipeline treats exactly status 200 as
success: the bootstrap check fails with the status error exactly when the
status differs from 200, and any other status — 201 and 204 included — makes
the upload, effect-invocation, result-page and image steps fail with their
status errors, while the all-200 environment completes the whole pipeline. -/
theorem only_status_200_succeeds (s : Nat) (hs : s ≠ 200) :
    (∀ cookies, (generateSessID (some ⟨s, cookies⟩)).fst = .error .sessStatus)
  ∧ (∀ env sess d b, sess ≠ "" → env.readResult = some d →
      env.upload = some ⟨s, b⟩ → (uploadImage env sess).fst = .error .uploadStatus)
  ∧ (∀ env sess params d u, sess ≠ "" → env.readResult = some d →
      env.upload = some ⟨200, some okJson⟩ → env.effect = some ⟨s, u⟩ →
      (applyEffect env sess params).fst = .error .effectStatus)
  ∧ (∀ env sess body, sess ≠ "" → env.resultPage = some ⟨s, body⟩ →
      (getResultImage env sess).fst = .error .resultStatus)
  ∧ (∀ env sess body, sess ≠ "" → env.resultPage = some ⟨200, resultHtml⟩ →
      env.image = some ⟨s, body⟩ → (getResultImage env sess).fst = .error .imageStatus)
  ∧ (∀ st cookies, (generateSessID (some ⟨st, cookies⟩)).fst = .error .sessStatus ↔
      st ≠ 200)
  ∧ (applyEffect envOK "s" fatifyParams).fst = .ok "DEADBEEF".toList := by
  refine ⟨?_, ?_, ?_, ?_, ?_, ?_, ?_⟩
  · intro cookies
    simp [generateSessID, hs]
  · intro env sess d b hsess hread hup
    simp [uploadImage, hread, createRequest_ne sess hsess, hup, hs]
  · intro env sess params d u hsess hread hup hef
    have hdec : decodePhotoFuniaResponse okJson = some "abc123" := rfl
    have h1 : uploadImage env sess = (.ok ("abc123", sess),
        [Event.readStream, Event.uploadPost, Event.closeStream]) := by
      simp [uploadImage, hread, createRequest_ne sess hsess, hup, hdec]
    have hne : ("abc123" : String) ≠ "" := by decide
    simp [applyEffect, h1, hne, createRequest_ne sess hsess, hef, hs]
  · intro env sess body hsess hrp
    simp [getResultImage, createRequest_ne sess hsess, hrp, hs]
  · intro env sess body hsess hrp himg
    have hx : extractImageURL resultHtml = .ok "https://x/y.jpg".toList := rfl
    simp [getResultImage, createRequest_ne sess hsess, hrp, hx, himg, hs]
  · intro st cookies
    constructor
    · intro h h200
      subst h200
      rcases hf : findPHPSESSID cookies with - | v <;> simp [generateSessID, hf] at h
    · intro h
      simp [generateSessID, h]
  · rfl

/-- An environment whose upload endpoint answers 204. -/
def env204 : Env := ⟨some ['i'], none, some ⟨204, none⟩, none, none, none⟩

/-- Witness for C10 at the statuses 201 and 204. -/
theorem only_status_200_succeeds_witness :
    (generateSessID (some ⟨201, []⟩)).fst = .error .sessStatus
  ∧ (uploadImage env204 "s").fst = .error .uploadStatus := by
  refine ⟨(only_status_200_succeeds 201 (by decide)).1 [], ?_⟩
  exact (only_status_200_succeeds 204 (by decide)).2.1 env204 "s" ['i'] none
    (by decide) rfl rfl

/-- C7: the multipart field map of the clown effect-invocation request holds
the hat toggle with value on or off according to the option, the fixed
category and crop parameters, and the image key under the name image; the
field names are unique, so each value is the field's value. -/
theorem clownify_effect_fields (includeHat : Bool) (key : String) :
    ("hat", if includeHat then "on" else "off") ∈
        effectRequestFields (clownifyParams includeHat) key
  ∧ ("current-category", "all_effects") ∈ effectRequestFields (clownifyParams includeHat) key
  ∧ ("image:crop", "0.0.961.1093") ∈ effectRequestFields (clownifyParams includeHat) key
  ∧ ("image", key) ∈ effectRequestFields (clownifyParams includeHat) key
  ∧ ((effectRequestFields (clownifyParams includeHat) key).map Prod.fst).Nodup := by
  cases includeHat with
  | false =>
    have hf : effectRequestFields (clownifyParams false) key =
        [("current-category", "all_effects"), ("image:crop", "0.0.961.1093"),
          ("hat", "off"), ("image", key)] := rfl
    rw [hf]
    have hmap : List.map Prod.fst
        [("current-category", "all_effects"), ("image:crop", "0.0.961.1093"),
          ("hat", "off"), ("image", key)] =
        ["current-category", "image:crop", "hat", "image"] := rfl
    exact ⟨by simp, by simp, by simp, by simp, by rw [hmap]; decide⟩
  | true =>
    have hf : effectRequestFields (clownifyParams true) key =
        [("current-category", "all_effects"), ("image:crop", "0.0.961.1093"),
          ("hat", "on"), ("image", key)] := rfl
    rw [hf]
    have hmap : List.map Prod.fst
        [("current-category", "all_effects"), ("image:crop", "0.0.961.1093"),
          ("hat", "on"), ("image", key)] =
        ["current-category", "image:crop", "hat", "image"] := rfl
    exact ⟨by simp, by simp, by simp, by simp, by rw [hmap]; decide⟩
